import Mathlib

/-!
Verification of the portal repository's core coordination logic: the
server-side `PresenceManager` and `SignalingServer`, and the client-side
`useWebRTC` mesh orchestrator and `useMotionDetection` hook.  Each TypeScript
class or hook is shallowly embedded as pure Lean functions over explicit
state; JavaScript `Map`s become association lists with JS `Map` semantics
(set overwrites in place, iteration in insertion order), and `setTimeout`
handles become an explicit arena of live timers with fresh numeric ids.
-/

namespace Portal

/-! ### Association maps with JS `Map` semantics -/

/-- Lookup in an association list (JS `Map.get`). -/
def aget {α : Type} : List (String × α) → String → Option α
  | [], _ => none
  | (k', v) :: rest, k => if k' = k then some v else aget rest k

/-- Key membership (JS `Map.has`). -/
def ahas {α : Type} (m : List (String × α)) (k : String) : Bool :=
  (aget m k).isSome

/-- Insert-or-replace keeping insertion order (JS `Map.set`). -/
def aset {α : Type} : List (String × α) → String → α → List (String × α)
  | [], k, v => [(k, v)]
  | (k', v') :: rest, k, v =>
      if k' = k then (k, v) :: rest else (k', v') :: aset rest k v

/-- Key removal (JS `Map.delete`). -/
def adel {α : Type} (m : List (String × α)) (k : String) : List (String × α) :=
  m.filter (fun e => e.1 ≠ k)

theorem aget_aset_self {α : Type} (m : List (String × α)) (k : String) (v : α) :
    aget (aset m k v) k = some v := by
  induction m with
  | nil => simp [aset, aget]
  | cons e rest ih =>
    by_cases h : e.1 = k
    · simp [aset, h, aget]
    · simp [aset, h, aget, ih]

theorem aget_aset_ne {α : Type} (m : List (String × α)) (k k' : String) (v : α)
    (h : k' ≠ k) : aget (aset m k v) k' = aget m k' := by
  have h' : k ≠ k' := Ne.symm h
  induction m with
  | nil => simp [aset, aget, h']
  | cons e rest ih =>
    obtain ⟨k₀, v₀⟩ := e
    by_cases he : k₀ = k
    · subst he
      simp [aset, aget, h']
    · by_cases he' : k₀ = k'
      · simp [aset, he, aget, he', h]
      · simp [aset, he, aget, he', ih]

theorem ahas_aset {α : Type} (m : List (String × α)) (k k' : String) (v : α) :
    ahas (aset m k v) k' = (decide (k' = k) || ahas m k') := by
  by_cases h : k' = k
  · subst h; simp [ahas, aget_aset_self]
  · simp [ahas, aget_aset_ne m k k' v h, h]

theorem aget_adel_self {α : Type} (m : List (String × α)) (k : String) :
    aget (adel m k) k = none := by
  induction m with
  | nil => simp [adel, aget]
  | cons e rest ih =>
    obtain ⟨k₀, v₀⟩ := e
    by_cases h : k₀ = k
    · simpa [adel, h] using ih
    · simpa [adel, h, aget] using ih

theorem aget_adel_ne {α : Type} (m : List (String × α)) (k k' : String)
    (h : k' ≠ k) : aget (adel m k) k' = aget m k' := by
  have h' : k ≠ k' := Ne.symm h
  induction m with
  | nil => simp [adel, aget]
  | cons e rest ih =>
    obtain ⟨k₀, v₀⟩ := e
    by_cases he : k₀ = k
    · subst he
      simpa [adel, aget, h'] using ih
    · by_cases he' : k₀ = k'
      · simp [adel, he, aget, he', h]
      · simpa [adel, he, aget, he'] using ih

theorem ahas_adel {α : Type} (m : List (String × α)) (k k' : String) :
    ahas (adel m k) k' = (decide (k' ≠ k) && ahas m k') := by
  by_cases h : k' = k
  · subst h; simp [ahas, aget_adel_self]
  · simp [ahas, aget_adel_ne m k k' h, h]

/-! ### Data model (`packages/shared` types) -/

/-- `Device` from the shared package: `{id, groupId, name, isPresent, lastMotionAt?}`. -/
structure Device where
  id : String
  groupId : String
  name : String
  isPresent : Bool
  lastMotionAt : Option Nat
  deriving Repr, DecidableEq

/-! ### PresenceManager (`server/src/presence-manager.ts`)

`setTimeout` handles are modelled as an arena of live timers with fresh
numeric ids: `setTimeout` allocates the next id and adds a `Timer` to
`liveTimers`; `clearTimeout tid` removes the live timer with that id.  The
`presenceTimers` map stores, per device id, the handle the class retained. -/

/-- A live (armed, not yet cleared or fired) `setTimeout` handle. -/
structure Timer where
  tid : Nat
  deviceId : String
  duration : Nat
  deriving Repr, DecidableEq

structure PresenceConfig where
  presenceTimeout : Nat
  deriving Repr, DecidableEq

structure PresenceState where
  presentDevices : List (String × Device)
  presenceTimers : List (String × Nat)
  liveTimers : List Timer
  nextTimerId : Nat
  deriving Repr, DecidableEq

def PresenceState.init : PresenceState := ⟨[], [], [], 0⟩

/-- `clearTimeout` on the timer arena. -/
def clearTimer (live : List Timer) (tid : Nat) : List Timer :=
  live.filter (fun t => t.tid ≠ tid)

/-- `PresenceManager.markPresent(device)`.  Returns the new state and the
list of `presence_changed` group ids emitted by this call. -/
def markPresent (cfg : PresenceConfig) (s : PresenceState) (device : Device)
    (now : Nat) : PresenceState × List String :=
  let wasPresent := ahas s.presentDevices device.id
  let device' := { device with isPresent := true, lastMotionAt := some now }
  let present' := aset s.presentDevices device.id device'
  let live1 :=
    match aget s.presenceTimers device.id with
    | some tid => clearTimer s.liveTimers tid
    | none => s.liveTimers
  let newTimer : Timer := ⟨s.nextTimerId, device.id, cfg.presenceTimeout⟩
  let timers' := aset s.presenceTimers device.id s.nextTimerId
  (⟨present', timers', newTimer :: live1, s.nextTimerId + 1⟩,
   if wasPresent then [] else [device.groupId])

/-- `PresenceManager.markNotPresent(deviceId)`.  Returns the new state and
the list of `presence_changed` group ids emitted by this call. -/
def markNotPresent (s : PresenceState) (deviceId : String) :
    PresenceState × List String :=
  match aget s.presentDevices deviceId with
  | none => (s, [])
  | some device =>
    let present' := adel s.presentDevices deviceId
    let next :=
      match aget s.presenceTimers deviceId with
      | some tid => (clearTimer s.liveTimers tid, adel s.presenceTimers deviceId)
      | none => (s.liveTimers, s.presenceTimers)
    (⟨present', next.2, next.1, s.nextTimerId⟩, [device.groupId])

/-- `PresenceManager.getPresentDevicesInGroup(groupId)`. -/
def getPresentDevicesInGroup (s : PresenceState) (groupId : String) : List Device :=
  (s.presentDevices.map Prod.snd).filter (fun d => d.groupId = groupId)

/-- One external call into the `PresenceManager`. -/
inductive PresenceOp where
  | mark (device : Device) (now : Nat)
  | unmark (deviceId : String)
  deriving Repr, DecidableEq

def applyPresenceOp (cfg : PresenceConfig) (s : PresenceState) : PresenceOp → PresenceState
  | .mark d now => (markPresent cfg s d now).1
  | .unmark id => (markNotPresent s id).1

/-- Run a sequence of `markPresent`/`markNotPresent` calls from the initial
(empty) manager state. -/
def runPresenceOps (cfg : PresenceConfig) (ops : List PresenceOp) : PresenceState :=
  ops.foldl (applyPresenceOp cfg) PresenceState.init

/-- Timer-arena invariant of the `PresenceManager`: the timer registry and
the present-device registry have the same keys, every live timer is the one
the registry retains for its device, live timer ids are pairwise distinct,
and all allocated ids are below the fresh counter. -/
structure PresenceInv (s : PresenceState) : Prop where
  keysEq : ∀ id, ahas s.presenceTimers id = ahas s.presentDevices id
  liveReg : ∀ t ∈ s.liveTimers, aget s.presenceTimers t.deviceId = some t.tid
  liveTids : List.Pairwise (fun a b => a.tid ≠ b.tid) s.liveTimers
  liveFresh : ∀ t ∈ s.liveTimers, t.tid < s.nextTimerId
  regFresh : ∀ id tid, aget s.presenceTimers id = some tid → tid < s.nextTimerId

theorem mem_clearTimer {l : List Timer} {tid : Nat} {t : Timer}
    (h : t ∈ clearTimer l tid) : t ∈ l ∧ t.tid ≠ tid := by
  have := List.mem_filter.mp h
  exact ⟨this.1, by simpa using this.2⟩

theorem mem_clearTimer_of {l : List Timer} {tid : Nat} {t : Timer}
    (h : t ∈ l) (hne : t.tid ≠ tid) : t ∈ clearTimer l tid :=
  List.mem_filter.mpr ⟨h, by simpa using hne⟩

theorem presenceInv_init : PresenceInv PresenceState.init := by
  constructor <;> simp [PresenceState.init, ahas, aget]

theorem presenceInv_markPresent (cfg : PresenceConfig) {s : PresenceState}
    (h : PresenceInv s) (d : Device) (now : Nat) :
    PresenceInv (markPresent cfg s d now).1 := by
  -- the live-timer list after the conditional clearTimeout
  set live1 :=
    (match aget s.presenceTimers d.id with
     | some tid => clearTimer s.liveTimers tid
     | none => s.liveTimers) with hlive1
  have hmem : ∀ t ∈ live1, t ∈ s.liveTimers := by
    intro t ht
    rw [hlive1] at ht
    cases hreg : aget s.presenceTimers d.id with
    | none => rw [hreg] at ht; exact ht
    | some tid => rw [hreg] at ht; exact (mem_clearTimer ht).1
  have hdev : ∀ t ∈ live1, t.deviceId ≠ d.id := by
    intro t ht hd
    rw [hlive1] at ht
    cases hreg : aget s.presenceTimers d.id with
    | none =>
      rw [hreg] at ht
      have := h.liveReg t ht
      rw [hd, hreg] at this
      exact Option.noConfusion this
    | some tid =>
      rw [hreg] at ht
      obtain ⟨htl, htne⟩ := mem_clearTimer ht
      have := h.liveReg t htl
      rw [hd, hreg] at this
      exact htne (Option.some_injective _ this.symm)
  have hsub : live1.Sublist s.liveTimers := by
    rw [hlive1]
    cases hreg : aget s.presenceTimers d.id with
    | none => exact List.Sublist.refl _
    | some tid => exact List.filter_sublist _
  have hres : (markPresent cfg s d now).1 =
      ⟨aset s.presentDevices d.id { d with isPresent := true, lastMotionAt := some now },
       aset s.presenceTimers d.id s.nextTimerId,
       ⟨s.nextTimerId, d.id, cfg.presenceTimeout⟩ :: live1,
       s.nextTimerId + 1⟩ := by
    rw [hlive1]; rfl
  rw [hres]
  constructor
  · intro id
    simp only [ahas_aset, h.keysEq id]
  · intro t ht
    rcases List.mem_cons.mp ht with rfl | htl
    · exact aget_aset_self _ _ _
    · have hne := hdev t htl
      rw [aget_aset_ne _ _ _ _ hne]
      exact h.liveReg t (hmem t htl)
  · refine List.pairwise_cons.mpr ⟨?_, h.liveTids.sublist hsub⟩
    intro t ht
    exact fun he => absurd (he ▸ h.liveFresh t (hmem t ht)) (lt_irrefl _)
  · intro t ht
    rcases List.mem_cons.mp ht with rfl | htl
    · exact Nat.lt_succ_self _
    · exact Nat.lt_succ_of_lt (h.liveFresh t (hmem t htl))
  · intro id tid htid
    by_cases hid : id = d.id
    · rw [hid, aget_aset_self] at htid
      exact (Option.some_injective _ htid) ▸ Nat.lt_succ_self _
    · rw [aget_aset_ne _ _ _ _ hid] at htid
      exact Nat.lt_succ_of_lt (h.regFresh id tid htid)

theorem presenceInv_markNotPresent {s : PresenceState}
    (h : PresenceInv s) (id : String) :
    PresenceInv (markNotPresent s id).1 := by
  cases hp : aget s.presentDevices id with
  | none => simpa [markNotPresent, hp] using h
  | some dev =>
    cases ht : aget s.presenceTimers id with
    | none =>
      exfalso
      have := h.keysEq id
      rw [ahas, ahas, hp, ht] at this
      exact Bool.noConfusion this
    | some tid0 =>
      have hres : (markNotPresent s id).1 =
          ⟨adel s.presentDevices id, adel s.presenceTimers id,
           clearTimer s.liveTimers tid0, s.nextTimerId⟩ := by
        simp [markNotPresent, hp, ht]
      rw [hres]
      constructor
      · intro id'
        simp only [ahas_adel, h.keysEq id']
      · intro t htm
        obtain ⟨htl, htne⟩ := mem_clearTimer htm
        have hreg := h.liveReg t htl
        have hdev : t.deviceId ≠ id := by
          intro hd
          rw [hd, ht] at hreg
          exact htne (Option.some_injective _ hreg.symm)
        rw [aget_adel_ne _ _ _ hdev]
        exact hreg
      · exact h.liveTids.sublist (List.filter_sublist _)
      · intro t htm
        exact h.liveFresh t (mem_clearTimer htm).1
      · intro id' tid htid
        by_cases hid : id' = id
        · rw [hid, aget_adel_self] at htid
          exact Option.noConfusion htid
        · rw [aget_adel_ne _ _ _ hid] at htid
          exact h.regFresh id' tid htid

theorem presenceInv_run (cfg : PresenceConfig) (ops : List PresenceOp) :
    PresenceInv (runPresenceOps cfg ops) := by
  suffices hgen : ∀ (l : List PresenceOp) (s : PresenceState), PresenceInv s →
      PresenceInv (l.foldl (applyPresenceOp cfg) s) by
    exact hgen ops PresenceState.init presenceInv_init
  intro l
  induction l with
  | nil => exact fun s hs => hs
  | cons op rest ih =>
    intro s hs
    cases op with
    | mark d now => exact ih _ (presenceInv_markPresent cfg hs d now)
    | unmark id => exact ih _ (presenceInv_markNotPresent hs id)

theorem presenceInv_atMostOne {s : PresenceState} (h : PresenceInv s)
    (id : String) :
    (s.liveTimers.filter (fun t => t.deviceId = id)).length ≤ 1 := by
  cases hfl : s.liveTimers.filter (fun t => t.deviceId = id) with
  | nil => simp
  | cons t1 tl =>
    cases tl with
    | nil => simp
    | cons t2 rest =>
      exfalso
      have h1 : t1 ∈ s.liveTimers.filter (fun t => t.deviceId = id) := by
        rw [hfl]; exact List.mem_cons_self _ _
      have h2 : t2 ∈ s.liveTimers.filter (fun t => t.deviceId = id) := by
        rw [hfl]; exact List.mem_cons_of_mem _ (List.mem_cons_self _ _)
      obtain ⟨h1l, h1d⟩ := List.mem_filter.mp h1
      obtain ⟨h2l, h2d⟩ := List.mem_filter.mp h2
      have h1d' : t1.deviceId = id := by simpa using h1d
      have h2d' : t2.deviceId = id := by simpa using h2d
      have e1 := h.liveReg t1 h1l
      have e2 := h.liveReg t2 h2l
      rw [h1d'] at e1
      rw [h2d'] at e2
      have heq : t1.tid = t2.tid := Option.some_injective _ (e1.symm.trans e2)
      have hpw : List.Pairwise (fun a b => a.tid ≠ b.tid) (t1 :: t2 :: rest) := by
        rw [← hfl]
        exact h.liveTids.sublist (List.filter_sublist _)
      exact (List.pairwise_cons.mp hpw).1 t2 (List.mem_cons_self _ _) heq

/-- C1: `presence_changed` fires exactly once per true transition.
`markPresent` emits `presence_changed(device.groupId)` iff the device id was
not already in the present map; `markNotPresent` emits the stored device's
group id iff an entry actually existed, removing the entry, its registry
handle and its live timer in that case and changing nothing otherwise. -/
theorem presence_changed_edge_triggered
    (cfg : PresenceConfig) (s : PresenceState) (d : Device) (now : Nat) (id : String) :
    ((markPresent cfg s d now).2 =
      if ahas s.presentDevices d.id then [] else [d.groupId]) ∧
    ((markNotPresent s id).2 =
      match aget s.presentDevices id with
      | some dev => [dev.groupId]
      | none => []) ∧
    (aget s.presentDevices id = none → (markNotPresent s id).1 = s) ∧
    (∀ dev, aget s.presentDevices id = some dev →
      ahas (markNotPresent s id).1.presentDevices id = false ∧
      ahas (markNotPresent s id).1.presenceTimers id = false ∧
      ∀ tid, aget s.presenceTimers id = some tid →
        ∀ t ∈ (markNotPresent s id).1.liveTimers, t.tid ≠ tid) := by
  refine ⟨rfl, ?_, ?_, ?_⟩
  · cases hp : aget s.presentDevices id <;> simp [markNotPresent, hp]
  · intro hp
    simp [markNotPresent, hp]
  · intro dev hp
    cases ht : aget s.presenceTimers id with
    | none =>
      refine ⟨?_, ?_, ?_⟩
      · simp [markNotPresent, hp, ht, ahas, aget_adel_self]
      · simp [markNotPresent, hp, ht, ahas]
      · intro tid htid
        exact Option.noConfusion htid
    | some tid0 =>
      refine ⟨?_, ?_, ?_⟩
      · simp [markNotPresent, hp, ht, ahas, aget_adel_self]
      · simp [markNotPresent, hp, ht, ahas, aget_adel_self]
      · intro tid htid t htm
        have : tid = tid0 := (Option.some_injective _ htid).symm
        subst this
        have htm' : t ∈ clearTimer s.liveTimers tid := by
          simpa [markNotPresent, hp, ht] using htm
        exact (mem_clearTimer htm').2

/-- Concrete instantiation of `presence_changed_edge_triggered`: removing
the single present device clears the registries, and `markNotPresent` on an
empty manager changes nothing. -/
theorem presence_changed_edge_triggered_witness :
    ahas (markNotPresent ⟨[("a", ⟨"a", "g", "n", true, none⟩)], [("a", 5)],
        [⟨5, "a", 100⟩], 6⟩ "a").1.presentDevices "a" = false ∧
    (markNotPresent ⟨[], [], [], 0⟩ "a").1 = ⟨[], [], [], 0⟩ :=
  ⟨((presence_changed_edge_triggered ⟨100⟩
        ⟨[("a", ⟨"a", "g", "n", true, none⟩)], [("a", 5)], [⟨5, "a", 100⟩], 6⟩
        ⟨"a", "g", "n", true, none⟩ 0 "a").2.2.2
      ⟨"a", "g", "n", true, none⟩ (by decide)).1,
   (presence_changed_edge_triggered ⟨100⟩ ⟨[], [], [], 0⟩
      ⟨"a", "g", "n", true, none⟩ 0 "a").2.2.1 (by decide)⟩

/-- C2: after any sequence of `markPresent`/`markNotPresent` calls, the
timer-registry keys coincide with the present-device keys, each device id
has at most one live timer, and a `markPresent` refresh on an
already-present device cancels the registered timer and arms a fresh one
carrying the full configured presence duration. -/
theorem single_timer_invariant (cfg : PresenceConfig) (ops : List PresenceOp)
    (d : Device) (now : Nat) :
    (∀ id, ahas (runPresenceOps cfg ops).presenceTimers id =
        ahas (runPresenceOps cfg ops).presentDevices id) ∧
    (∀ id, ((runPresenceOps cfg ops).liveTimers.filter
        (fun t => t.deviceId = id)).length ≤ 1) ∧
    (∀ tid, aget (runPresenceOps cfg ops).presenceTimers d.id = some tid →
      (∀ t ∈ (markPresent cfg (runPresenceOps cfg ops) d now).1.liveTimers,
          t.tid ≠ tid) ∧
      ∃ t ∈ (markPresent cfg (runPresenceOps cfg ops) d now).1.liveTimers,
        t.deviceId = d.id ∧ t.duration = cfg.presenceTimeout ∧
        t.tid = (runPresenceOps cfg ops).nextTimerId) := by
  have hinv := presenceInv_run cfg ops
  refine ⟨hinv.keysEq, fun id => presenceInv_atMostOne hinv id, ?_⟩
  intro tid htid
  have hfresh : tid < (runPresenceOps cfg ops).nextTimerId :=
    hinv.regFresh _ tid htid
  have hlive : (markPresent cfg (runPresenceOps cfg ops) d now).1.liveTimers =
      ⟨(runPresenceOps cfg ops).nextTimerId, d.id, cfg.presenceTimeout⟩ ::
        clearTimer (runPresenceOps cfg ops).liveTimers tid := by
    simp [markPresent, htid]
  constructor
  · intro t htm
    rw [hlive] at htm
    rcases List.mem_cons.mp htm with rfl | htl
    · exact Nat.ne_of_gt hfresh
    · exact (mem_clearTimer htl).2
  · refine ⟨⟨(runPresenceOps cfg ops).nextTimerId, d.id, cfg.presenceTimeout⟩,
      ?_, rfl, rfl, rfl⟩
    rw [hlive]
    exact List.mem_cons_self _ _

/-- Concrete instantiation of `single_timer_invariant`: after marking device
`"a"` once, refreshing it cancels timer 0 and arms the fresh timer 1 with
the configured duration. -/
theorem single_timer_invariant_witness :
    ∃ t ∈ (markPresent ⟨100⟩
        (runPresenceOps ⟨100⟩ [PresenceOp.mark ⟨"a", "g", "n", false, none⟩ 0])
        ⟨"a", "g", "n", false, none⟩ 7).1.liveTimers,
      t.deviceId = "a" ∧ t.duration = 100 ∧
      t.tid = (runPresenceOps ⟨100⟩
        [PresenceOp.mark ⟨"a", "g", "n", false, none⟩ 0]).nextTimerId :=
  ((single_timer_invariant ⟨100⟩ [PresenceOp.mark ⟨"a", "g", "n", false, none⟩ 0]
      ⟨"a", "g", "n", false, none⟩ 7).2.2 0 (by decide)).2

/-! ### SignalingServer (`server/src/signaling.ts`)

The SQLite-backed `PortalDatabase` is modelled as two keyed stores (groups
and devices); the store never throws in the model, so the `catch` branches
of `handleRegister` are unreachable.  Socket.io sockets appear as their
string ids; every emitted message is recorded as a `(socketId, Msg)` pair in
the order it was sent.  `EventEmitter.emit` is synchronous in Node, so the
`presence_changed` events raised inside `markPresent`/`markNotPresent` are
expanded into `handlePresenceChange` broadcasts at the emission point. -/

structure DbDevice where
  id : String
  groupId : String
  name : String
  deriving Repr, DecidableEq

structure Db where
  groups : List (String × String)
  devices : List (String × DbDevice)
  deriving Repr, DecidableEq

def Db.getGroup (db : Db) (id : String) : Option String := aget db.groups id

def Db.createGroup (db : Db) (id name : String) : Db :=
  { db with groups := aset db.groups id name }

def Db.deviceExists (db : Db) (id : String) : Bool := ahas db.devices id

def Db.createDevice (db : Db) (id groupId name : String) : Db :=
  { db with devices := aset db.devices id ⟨id, groupId, name⟩ }

def Db.updateDeviceGroup (db : Db) (id groupId : String) : Db :=
  match aget db.devices id with
  | some d => { db with devices := aset db.devices id { d with groupId := groupId } }
  | none => db

def Db.getDevice (db : Db) (id : String) : Option DbDevice := aget db.devices id

/-- `group.deviceIds` as produced by `getGroup`/`getDevicesByGroup`. -/
def Db.groupDeviceIds (db : Db) (groupId : String) : List String :=
  ((db.devices.map Prod.snd).filter (fun d => d.groupId = groupId)).map DbDevice.id

inductive MsgType where
  | register | registerAck | motionDetected | motionStopped | presenceUpdate
  | offer | answer | iceCandidate | errorMsg
  deriving Repr, DecidableEq

inductive Payload where
  | registerAck (success : Bool) (deviceId groupId : String)
  | presenceUpdate (groupId : String) (presentDevices : List Device)
  | offer (fromId toId : String) (sdp : Nat)
  | answer (fromId toId : String) (sdp : Nat)
  | ice (fromId toId : String) (candidate : Nat)
  | err (code message : String)
  deriving Repr, DecidableEq

structure Msg where
  type : MsgType
  payload : Payload
  timestamp : Nat
  deriving Repr, DecidableEq

structure ServerState where
  db : Db
  presence : PresenceState
  deviceSockets : List (String × String)
  socketDevices : List (String × String)
  deriving Repr, DecidableEq

/-- Messages emitted by a handler, as `(socketId, message)` in send order. -/
abbrev Outputs := List (String × Msg)

/-- Calls a handler makes into the `PresenceManager`. -/
inductive RegCall where
  | markPresentCall (device : Device)
  | markNotPresentCall (deviceId : String)
  deriving Repr, DecidableEq

def sendError (socket : String) (code message : String) (now : Nat) :
    String × Msg :=
  (socket, ⟨MsgType.errorMsg, Payload.err code message, now⟩)

/-- `SignalingServer.broadcastToGroup`. -/
def broadcastToGroup (s : ServerState) (groupId : String) (m : Msg) : Outputs :=
  match s.db.getGroup groupId with
  | none => []
  | some _ =>
    (s.db.groupDeviceIds groupId).filterMap fun did =>
      (aget s.deviceSockets did).map fun sid => (sid, m)

/-- `SignalingServer.handlePresenceChange`. -/
def handlePresenceChange (s : ServerState) (groupId : String) (now : Nat) :
    Outputs :=
  broadcastToGroup s groupId
    ⟨MsgType.presenceUpdate,
     Payload.presenceUpdate groupId (getPresentDevicesInGroup s.presence groupId),
     now⟩

/-- First half of `handleRegister`: ensure the group row exists. -/
def registerEnsureGroup (db : Db) (groupId : String) : Db :=
  if (db.getGroup groupId).isSome then db
  else db.createGroup groupId "Family Group"

/-- Second half of `handleRegister`'s store interaction: create the device
row when absent, otherwise update its group to the current one. -/
def registerEnsureDevice (db : Db) (deviceId groupId deviceName : String) : Db :=
  if db.deviceExists deviceId then db.updateDeviceGroup deviceId groupId
  else db.createDevice deviceId groupId deviceName

/-- `SignalingServer.handleRegister` (success path of the store calls). -/
def handleRegister (s : ServerState) (socket : String)
    (deviceId groupId deviceName : String) (now : Nat) :
    ServerState × Outputs :=
  let db2 := registerEnsureDevice (registerEnsureGroup s.db groupId)
    deviceId groupId deviceName
  let s1 : ServerState :=
    { s with db := db2,
             deviceSockets := aset s.deviceSockets deviceId socket,
             socketDevices := aset s.socketDevices socket deviceId }
  let ack : Msg := ⟨MsgType.registerAck, Payload.registerAck true deviceId groupId, now⟩
  let pu : Msg := ⟨MsgType.presenceUpdate,
    Payload.presenceUpdate groupId (getPresentDevicesInGroup s1.presence groupId), now⟩
  (s1, [(socket, ack), (socket, pu)])

/-- `SignalingServer.handleMotionDetected`. -/
def handleMotionDetected (cfg : PresenceConfig) (s : ServerState)
    (socket deviceId : String) (now : Nat) :
    ServerState × Outputs × List RegCall :=
  match s.db.getDevice deviceId with
  | none => (s, [sendError socket "DEVICE_NOT_FOUND" "Device not registered" now], [])
  | some dd =>
    let device : Device := ⟨dd.id, dd.groupId, dd.name, true, none⟩
    let next := markPresent cfg s.presence device now
    let s' := { s with presence := next.1 }
    (s', (next.2.map fun g => handlePresenceChange s' g now).flatten,
     [RegCall.markPresentCall device])

/-- `SignalingServer.handleMotionStopped`. -/
def handleMotionStopped (s : ServerState) (deviceId : String) (now : Nat) :
    ServerState × Outputs × List RegCall :=
  let next := markNotPresent s.presence deviceId
  let s' := { s with presence := next.1 }
  (s', (next.2.map fun g => handlePresenceChange s' g now).flatten,
   [RegCall.markNotPresentCall deviceId])

/-- `SignalingServer.handleOffer`. -/
def handleOffer (s : ServerState) (socket : String) (fromId toId : String)
    (sdp : Nat) (now : Nat) : ServerState × Outputs :=
  match aget s.deviceSockets toId with
  | none =>
    (s, [sendError socket "PEER_NOT_FOUND" ("Device " ++ toId ++ " not connected") now])
  | some target =>
    (s, [(target, ⟨MsgType.offer, Payload.offer fromId toId sdp, now⟩)])

/-- `SignalingServer.handleAnswer`. -/
def handleAnswer (s : ServerState) (socket : String) (fromId toId : String)
    (sdp : Nat) (now : Nat) : ServerState × Outputs :=
  match aget s.deviceSockets toId with
  | none =>
    (s, [sendError socket "PEER_NOT_FOUND" ("Device " ++ toId ++ " not connected") now])
  | some target =>
    (s, [(target, ⟨MsgType.answer, Payload.answer fromId toId sdp, now⟩)])

/-- `SignalingServer.handleIceCandidate`. -/
def handleIceCandidate (s : ServerState) (socket : String) (fromId toId : String)
    (candidate : Nat) (now : Nat) : ServerState × Outputs :=
  match aget s.deviceSockets toId with
  | none => (s, [])
  | some target =>
    (s, [(target, ⟨MsgType.iceCandidate, Payload.ice fromId toId candidate, now⟩)])

/-- `SignalingServer.handleDisconnect`.  The `presence_changed` emitted
inside `markNotPresent` is handled synchronously, before the binding maps
are touched, so the broadcast still sees the disconnecting binding. -/
def handleDisconnect (s : ServerState) (socket : String) (now : Nat) :
    ServerState × Outputs × List RegCall :=
  match aget s.socketDevices socket with
  | none => (s, [], [])
  | some did =>
    if aget s.deviceSockets did = some socket then
      let next := markNotPresent s.presence did
      let sMid : ServerState := { s with presence := next.1 }
      let out := (next.2.map fun g => handlePresenceChange sMid g now).flatten
      ({ sMid with deviceSockets := adel sMid.deviceSockets did,
                   socketDevices := adel sMid.socketDevices socket },
       out, [RegCall.markNotPresentCall did])
    else
      ({ s with socketDevices := adel s.socketDevices socket }, [], [])

theorem updateDeviceGroup_groups (db : Db) (id groupId : String) :
    (db.updateDeviceGroup id groupId).groups = db.groups := by
  cases h : aget db.devices id <;> simp [Db.updateDeviceGroup, h]

theorem registerEnsureGroup_groups (db : Db) (groupId : String) :
    (registerEnsureGroup db groupId).groups =
      if (db.getGroup groupId).isSome then db.groups
      else aset db.groups groupId "Family Group" := by
  by_cases hg : (db.getGroup groupId).isSome = true <;>
    simp [registerEnsureGroup, hg, Db.createGroup]

theorem registerEnsureGroup_devices (db : Db) (groupId : String) :
    (registerEnsureGroup db groupId).devices = db.devices := by
  by_cases hg : (db.getGroup groupId).isSome = true <;>
    simp [registerEnsureGroup, hg, Db.createGroup]

theorem registerEnsureGroup_deviceExists (db : Db) (groupId deviceId : String) :
    (registerEnsureGroup db groupId).deviceExists deviceId =
      db.deviceExists deviceId := by
  simp [Db.deviceExists, registerEnsureGroup_devices]

theorem updateDeviceGroup_devices_congr {db db' : Db} (id groupId : String)
    (h : db.devices = db'.devices) :
    (db.updateDeviceGroup id groupId).devices =
      (db'.updateDeviceGroup id groupId).devices := by
  cases hd : aget db.devices id <;> simp [Db.updateDeviceGroup, hd, h, h ▸ hd]

theorem registerEnsureDevice_groups (db : Db) (deviceId groupId deviceName : String) :
    (registerEnsureDevice db deviceId groupId deviceName).groups = db.groups := by
  by_cases hd : db.deviceExists deviceId = true <;>
    simp [registerEnsureDevice, hd, updateDeviceGroup_groups, Db.createDevice]

theorem registerEnsureDevice_devices (db : Db) (deviceId groupId deviceName : String) :
    (registerEnsureDevice db deviceId groupId deviceName).devices =
      if db.deviceExists deviceId then (db.updateDeviceGroup deviceId groupId).devices
      else aset db.devices deviceId ⟨deviceId, groupId, deviceName⟩ := by
  by_cases hd : db.deviceExists deviceId = true <;>
    simp [registerEnsureDevice, hd, Db.createDevice]

/-- C4: on disconnect, the hub clears a device's binding and marks it not
present only when that device id's current binding still points at this
exact connection; a binding refreshed by a second REGISTER survives the
first connection's late disconnect. -/
theorem stale_disconnect_preserves_fresh_binding
    (s : ServerState) (socket did : String) (now : Nat) :
    (aget s.socketDevices socket = some did →
      (¬ aget s.deviceSockets did = some socket →
        (handleDisconnect s socket now).1.deviceSockets = s.deviceSockets ∧
        (handleDisconnect s socket now).1.presence = s.presence ∧
        (handleDisconnect s socket now).2.2 = []) ∧
      (aget s.deviceSockets did = some socket →
        aget (handleDisconnect s socket now).1.deviceSockets did = none ∧
        (handleDisconnect s socket now).2.2 = [RegCall.markNotPresentCall did])) ∧
    (∀ (s0 : ServerState) (sock1 sock2 gid name : String),
      sock1 ≠ sock2 →
      aget (handleDisconnect
        ((handleRegister ((handleRegister s0 sock1 did gid name now).1)
            sock2 did gid name now).1) sock1 now).1.deviceSockets did = some sock2) := by
  constructor
  · intro hsd
    constructor
    · intro hne
      refine ⟨?_, ?_, ?_⟩ <;> simp [handleDisconnect, hsd, hne]
    · intro hcur
      refine ⟨?_, ?_⟩ <;> simp [handleDisconnect, hsd, hcur, aget_adel_self]
  · intro s0 sock1 sock2 gid name hne
    have hsd2 : aget ((handleRegister ((handleRegister s0 sock1 did gid name now).1)
        sock2 did gid name now).1).socketDevices sock1 = some did := by
      show aget (aset (aset s0.socketDevices sock1 did) sock2 did) sock1 = some did
      rw [aget_aset_ne _ _ _ _ hne, aget_aset_self]
    have hds2 : aget ((handleRegister ((handleRegister s0 sock1 did gid name now).1)
        sock2 did gid name now).1).deviceSockets did = some sock2 := by
      show aget (aset (aset s0.deviceSockets did sock1) did sock2) did = some sock2
      exact aget_aset_self _ _ _
    have hcond : ¬ aget ((handleRegister ((handleRegister s0 sock1 did gid name now).1)
        sock2 did gid name now).1).deviceSockets did = some sock1 := by
      rw [hds2]
      intro h
      exact (Ne.symm hne) (Option.some_injective _ h)
    have hne' : sock2 ≠ sock1 := Ne.symm hne
    simp [handleDisconnect, hsd2, hcond, hds2, hne']

/-- Concrete instantiation of `stale_disconnect_preserves_fresh_binding`:
after a reload re-registers device "d" on socket "s2", the late disconnect
of socket "s1" leaves the fresh binding in place (and the direct state
check shows the stale disconnect touches neither bindings nor presence). -/
theorem stale_disconnect_preserves_fresh_binding_witness :
    aget (handleDisconnect
        ((handleRegister ((handleRegister ⟨⟨[], []⟩, PresenceState.init, [], []⟩
            "s1" "d" "g" "n" 0).1) "s2" "d" "g" "n" 0).1) "s1" 0).1.deviceSockets "d" =
      some "s2" :=
  (stale_disconnect_preserves_fresh_binding
      ⟨⟨[], []⟩, PresenceState.init, [], []⟩ "s1" "d" 0).2
    ⟨⟨[], []⟩, PresenceState.init, [], []⟩ "s1" "s2" "g" "n" (by decide)

/-- C5: OFFER/ANSWER with an unbound `payload.to` produce
ERROR(PEER_NOT_FOUND) to the sender and change no state; an unbound
ICE_CANDIDATE is silently dropped; with a binding, each message is relayed
to the bound connection of `payload.to`. -/
theorem peer_not_found_routing
    (s : ServerState) (socket fromId toId : String) (sdp candidate now : Nat) :
    (aget s.deviceSockets toId = none →
      handleOffer s socket fromId toId sdp now =
        (s, [sendError socket "PEER_NOT_FOUND" ("Device " ++ toId ++ " not connected") now]) ∧
      handleAnswer s socket fromId toId sdp now =
        (s, [sendError socket "PEER_NOT_FOUND" ("Device " ++ toId ++ " not connected") now]) ∧
      handleIceCandidate s socket fromId toId candidate now = (s, [])) ∧
    (∀ target, aget s.deviceSockets toId = some target →
      handleOffer s socket fromId toId sdp now =
        (s, [(target, ⟨MsgType.offer, Payload.offer fromId toId sdp, now⟩)]) ∧
      handleAnswer s socket fromId toId sdp now =
        (s, [(target, ⟨MsgType.answer, Payload.answer fromId toId sdp, now⟩)]) ∧
      handleIceCandidate s socket fromId toId candidate now =
        (s, [(target, ⟨MsgType.iceCandidate, Payload.ice fromId toId candidate, now⟩)])) := by
  constructor
  · intro h
    exact ⟨by simp [handleOffer, h], by simp [handleAnswer, h],
           by simp [handleIceCandidate, h]⟩
  · intro target h
    exact ⟨by simp [handleOffer, h], by simp [handleAnswer, h],
           by simp [handleIceCandidate, h]⟩

/-- Concrete instantiation of `peer_not_found_routing`: with no binding for
"b", an OFFER yields PEER_NOT_FOUND to the sender with unchanged state; with
"b" bound to socket "sb", the OFFER is relayed there. -/
theorem peer_not_found_routing_witness :
    handleOffer ⟨⟨[], []⟩, PresenceState.init, [], []⟩ "sa" "a" "b" 1 0 =
      (⟨⟨[], []⟩, PresenceState.init, [], []⟩,
       [sendError "sa" "PEER_NOT_FOUND" "Device b not connected" 0]) ∧
    handleOffer ⟨⟨[], []⟩, PresenceState.init, [("b", "sb")], []⟩ "sa" "a" "b" 1 0 =
      (⟨⟨[], []⟩, PresenceState.init, [("b", "sb")], []⟩,
       [("sb", ⟨MsgType.offer, Payload.offer "a" "b" 1, 0⟩)]) :=
  ⟨((peer_not_found_routing ⟨⟨[], []⟩, PresenceState.init, [], []⟩
      "sa" "a" "b" 1 1 0).1 (by decide)).1,
   ((peer_not_found_routing ⟨⟨[], []⟩, PresenceState.init, [("b", "sb")], []⟩
      "sa" "a" "b" 1 1 0).2 "sb" (by decide)).1⟩

/-- C6: REGISTER idempotently ensures the group and device keys exist
(creating them only when absent), rebinds the connection to the device id
overwriting any prior binding, then sends the registering connection an
acknowledgement followed by the group's current present-device snapshot. -/
theorem register_ack_and_snapshot
    (s : ServerState) (socket deviceId groupId deviceName : String) (now : Nat) :
    (∀ k, ahas (handleRegister s socket deviceId groupId deviceName now).1.db.groups k =
        (decide (k = groupId) || ahas s.db.groups k)) ∧
    ((s.db.getGroup groupId).isSome = true →
      (handleRegister s socket deviceId groupId deviceName now).1.db.groups =
        s.db.groups) ∧
    (∀ k, ahas (handleRegister s socket deviceId groupId deviceName now).1.db.devices k =
        (decide (k = deviceId) || ahas s.db.devices k)) ∧
    (s.db.deviceExists deviceId = false →
      (handleRegister s socket deviceId groupId deviceName now).1.db.devices =
        aset s.db.devices deviceId ⟨deviceId, groupId, deviceName⟩) ∧
    (aget (handleRegister s socket deviceId groupId deviceName now).1.deviceSockets
        deviceId = some socket) ∧
    (aget (handleRegister s socket deviceId groupId deviceName now).1.socketDevices
        socket = some deviceId) ∧
    ((handleRegister s socket deviceId groupId deviceName now).1.presence = s.presence) ∧
    ((handleRegister s socket deviceId groupId deviceName now).2 =
      [(socket, ⟨MsgType.registerAck, Payload.registerAck true deviceId groupId, now⟩),
       (socket, ⟨MsgType.presenceUpdate,
         Payload.presenceUpdate groupId (getPresentDevicesInGroup s.presence groupId),
         now⟩)]) := by
  have hdbeq : (handleRegister s socket deviceId groupId deviceName now).1.db =
      registerEnsureDevice (registerEnsureGroup s.db groupId)
        deviceId groupId deviceName := rfl
  have hg1 : (handleRegister s socket deviceId groupId deviceName now).1.db.groups =
      if (s.db.getGroup groupId).isSome then s.db.groups
      else aset s.db.groups groupId "Family Group" := by
    rw [hdbeq, registerEnsureDevice_groups, registerEnsureGroup_groups]
  have hdevs : (handleRegister s socket deviceId groupId deviceName now).1.db.devices =
      if s.db.deviceExists deviceId then
        (s.db.updateDeviceGroup deviceId groupId).devices
      else aset s.db.devices deviceId ⟨deviceId, groupId, deviceName⟩ := by
    rw [hdbeq, registerEnsureDevice_devices, registerEnsureGroup_deviceExists,
      registerEnsureGroup_devices]
    by_cases hd : s.db.deviceExists deviceId = true
    · rw [if_pos hd, if_pos hd,
        updateDeviceGroup_devices_congr deviceId groupId
          (registerEnsureGroup_devices s.db groupId)]
    · rw [if_neg hd, if_neg hd]
  refine ⟨?_, ?_, ?_, ?_, ?_, ?_, rfl, rfl⟩
  · intro k
    rw [hg1]
    by_cases hg : (s.db.getGroup groupId).isSome
    · rw [if_pos hg]
      by_cases hk : k = groupId
      · subst hk
        have : ahas s.db.groups k = true := hg
        simp [this]
      · simp [hk]
    · rw [if_neg hg, ahas_aset]
  · intro hg
    rw [hg1, if_pos hg]
  · intro k
    rw [hdevs]
    by_cases hd : s.db.deviceExists deviceId = true
    · rw [if_pos hd]
      have hsome : (aget s.db.devices deviceId).isSome = true := hd
      rcases hrec : aget s.db.devices deviceId with _ | rec
      · rw [hrec] at hsome; exact absurd hsome (by simp)
      · rw [Db.updateDeviceGroup, hrec]
        by_cases hk : k = deviceId
        · subst hk
          have : ahas s.db.devices k = true := hd
          simp [ahas_aset, this]
        · simp [ahas_aset, hk]
    · rw [if_neg hd, ahas_aset]
  · intro hd
    rw [hdevs, if_neg (by simp [hd])]
  · exact aget_aset_self _ _ _
  · exact aget_aset_self _ _ _

/-- Concrete instantiation of `register_ack_and_snapshot`: registering a
device into an existing group leaves the group store untouched. -/
theorem register_ack_and_snapshot_witness :
    (handleRegister ⟨⟨[("g", "Family Group")], []⟩, PresenceState.init, [], []⟩
        "s1" "d" "g" "n" 0).1.db.groups = [("g", "Family Group")] :=
  (register_ack_and_snapshot ⟨⟨[("g", "Family Group")], []⟩, PresenceState.init, [], []⟩
      "s1" "d" "g" "n" 0).2.1 (by decide)

/-- C7 counterexample: with an empty store, MOTION_DETECTED for "d1" is not
forwarded to `markPresent` at all — the hub replies ERROR(DEVICE_NOT_FOUND)
and leaves every piece of state unchanged, refuting the claim that every
MOTION_DETECTED is forwarded unconditionally with the payload's data. -/
theorem motion_detected_not_forwarded_counterexample :
    (handleMotionDetected ⟨100⟩ ⟨⟨[], []⟩, PresenceState.init, [], []⟩ "s1" "d1" 0).2.2
      = [] ∧
    (handleMotionDetected ⟨100⟩ ⟨⟨[], []⟩, PresenceState.init, [], []⟩ "s1" "d1" 0).1
      = ⟨⟨[], []⟩, PresenceState.init, [], []⟩ ∧
    (handleMotionDetected ⟨100⟩ ⟨⟨[], []⟩, PresenceState.init, [], []⟩ "s1" "d1" 0).2.1
      = [sendError "s1" "DEVICE_NOT_FOUND" "Device not registered" 0] :=
  ⟨rfl, rfl, rfl⟩

/-- C7 (amended): MOTION_STOPPED is always forwarded verbatim to
`markNotPresent`; MOTION_DETECTED is forwarded to `markPresent` only when
the device id exists in the store, and the forwarded device is the store's
record (id, groupId, name) with `isPresent := true` — an unknown device gets
ERROR(DEVICE_NOT_FOUND) and no registry call. -/
theorem motion_forwarding_gated_by_store
    (cfg : PresenceConfig) (s : ServerState) (socket deviceId : String) (now : Nat) :
    ((handleMotionStopped s deviceId now).2.2 =
      [RegCall.markNotPresentCall deviceId]) ∧
    ((handleMotionStopped s deviceId now).1.presence =
      (markNotPresent s.presence deviceId).1) ∧
    (s.db.getDevice deviceId = none →
      handleMotionDetected cfg s socket deviceId now =
        (s, [sendError socket "DEVICE_NOT_FOUND" "Device not registered" now], [])) ∧
    (∀ dd, s.db.getDevice deviceId = some dd →
      (handleMotionDetected cfg s socket deviceId now).2.2 =
        [RegCall.markPresentCall ⟨dd.id, dd.groupId, dd.name, true, none⟩] ∧
      (handleMotionDetected cfg s socket deviceId now).1.presence =
        (markPresent cfg s.presence ⟨dd.id, dd.groupId, dd.name, true, none⟩ now).1) := by
  refine ⟨rfl, rfl, ?_, ?_⟩
  · intro h
    simp [handleMotionDetected, h]
  · intro dd h
    exact ⟨by simp [handleMotionDetected, h], by simp [handleMotionDetected, h]⟩

/-- Concrete instantiation of `motion_forwarding_gated_by_store`: with "d1"
in the store under group "g", MOTION_DETECTED forwards the store record to
`markPresent`. -/
theorem motion_forwarding_gated_by_store_witness :
    (handleMotionDetected ⟨100⟩
        ⟨⟨[("g", "Family Group")], [("d1", ⟨"d1", "g", "n", ⟩)]⟩,
         PresenceState.init, [], []⟩ "s1" "d1" 0).2.2 =
      [RegCall.markPresentCall ⟨"d1", "g", "n", true, none⟩] :=
  ((motion_forwarding_gated_by_store ⟨100⟩
      ⟨⟨[("g", "Family Group")], [("d1", ⟨"d1", "g", "n"⟩)]⟩,
       PresenceState.init, [], []⟩ "s1" "d1" 0).2.2.2
    ⟨"d1", "g", "n"⟩ (by decide)).1

/-! ### useWebRTC (`client/src/hooks/useWebRTC.ts`)

`RTCPeerConnection` objects are identified by the order of their creation:
`new RTCPeerConnection(...)` allocates the next numeric handle.
JavaScript's `<` on strings compares code units lexicographically; `jsLt`
mirrors it on the characters of the two strings. -/

def charsLt : List Char → List Char → Bool
  | [], [] => false
  | [], _ :: _ => true
  | _ :: _, [] => false
  | a :: as, b :: bs =>
      if a.toNat < b.toNat then true
      else if b.toNat < a.toNat then false
      else charsLt as bs

/-- JavaScript string comparison `a < b`. -/
def jsLt (a b : String) : Bool := charsLt a.data b.data

theorem charsLt_irrefl (l : List Char) : charsLt l l = false := by
  induction l with
  | nil => rfl
  | cons a as ih => simp [charsLt, ih]

theorem charsLt_asymm : ∀ {as bs : List Char}, charsLt as bs = true →
    charsLt bs as = false
  | [], [], h => by simpa [charsLt] using h
  | [], _ :: _, _ => by simp [charsLt]
  | _ :: _, [], h => by simp [charsLt] at h
  | a :: as, b :: bs, h => by
      by_cases hab : a.toNat < b.toNat
      · have hba : ¬ b.toNat < a.toNat := Nat.lt_asymm hab
        simp [charsLt, hab, hba]
      · by_cases hba : b.toNat < a.toNat
        · simp [charsLt, hab, hba] at h
        · simp [charsLt, hab, hba] at h ⊢
          exact charsLt_asymm h

theorem jsLt_irrefl (a : String) : jsLt a a = false := charsLt_irrefl _

theorem jsLt_asymm {a b : String} (h : jsLt a b = true) : jsLt b a = false :=
  charsLt_asymm h

theorem jsLt_ne {a b : String} (h : jsLt a b = true) : b ≠ a := by
  intro he
  subst he
  rw [jsLt_irrefl] at h
  exact Bool.noConfusion h

structure RTCState where
  peerConnections : List (String × Nat)
  nextPc : Nat
  deriving Repr, DecidableEq

inductive ClientMsg where
  | offerMsg (fromId toId : String)
  | answerMsg (fromId toId : String)
  deriving Repr, DecidableEq

/-- `createPeerConnection(peerId)`: allocate a fresh connection and store it
in the map (overwriting any entry for `peerId`). -/
def createPeerConnection (s : RTCState) (peerId : String) : RTCState × Nat :=
  (⟨aset s.peerConnections peerId s.nextPc, s.nextPc + 1⟩, s.nextPc)

/-- `createOffer(peerId)` (success path): create the connection and send an
OFFER to the peer. -/
def createOffer (myId : String) (s : RTCState) (peerId : String) :
    RTCState × List ClientMsg :=
  ((createPeerConnection s peerId).1, [ClientMsg.offerMsg myId peerId])

/-- `handleOffer(payload)` (success path): unconditionally create a fresh
connection for `payload.from`, then answer.  The third component records the
connections this path closes (none). -/
def handleOfferClient (myId : String) (s : RTCState) (fromId : String) :
    RTCState × List ClientMsg × List Nat :=
  ((createPeerConnection s fromId).1, [ClientMsg.answerMsg myId fromId], [])

/-- `closePeerConnection(peerId)`. -/
def closePeerConnection (s : RTCState) (peerId : String) : RTCState :=
  ⟨adel s.peerConnections peerId, s.nextPc⟩

/-- One iteration of the roster-reconciliation loop over a candidate peer. -/
def reconcileStep (myId : String) (acc : RTCState × List ClientMsg)
    (peerId : String) : RTCState × List ClientMsg :=
  if ahas acc.1.peerConnections peerId then acc
  else if jsLt myId peerId then
    ((createOffer myId acc.1 peerId).1, acc.2 ++ (createOffer myId acc.1 peerId).2)
  else acc

/-- The roster-reconciliation effect of `useWebRTC`: open (and offer to)
new participants with the lexicographic tie-break, then close connections to
participants that left.  Returns the new state and the messages sent. -/
def reconcileParticipants (myId : String) (participants : List String)
    (s : RTCState) : RTCState × List ClientMsg :=
  let others := participants.filter (fun id => id ≠ myId)
  let afterNew := others.foldl (reconcileStep myId) (s, [])
  let current := afterNew.1.peerConnections.map Prod.fst
  (current.foldl
    (fun st p => if p ∈ others then st else closePeerConnection st p) afterNew.1,
   afterNew.2)

theorem reconcileStep_sup (myId : String) (acc : RTCState × List ClientMsg)
    (q : String) {m : ClientMsg} (h : m ∈ acc.2) :
    m ∈ (reconcileStep myId acc q).2 := by
  unfold reconcileStep
  by_cases h1 : ahas acc.1.peerConnections q
  · simpa [h1] using h
  · by_cases h2 : jsLt myId q = true
    · simp [h1, h2]
      exact Or.inl h
    · simpa [h1, h2] using h

theorem reconcileFold_shape (myId : String) :
    ∀ (l : List String) (acc : RTCState × List ClientMsg),
      (∀ m ∈ acc.2, ∃ p, m = ClientMsg.offerMsg myId p ∧ jsLt myId p = true) →
      ∀ m ∈ (l.foldl (reconcileStep myId) acc).2,
        ∃ p, m = ClientMsg.offerMsg myId p ∧ jsLt myId p = true := by
  intro l
  induction l with
  | nil => exact fun acc hacc => hacc
  | cons q rest ih =>
    intro acc hacc
    refine ih (reconcileStep myId acc q) ?_
    intro m hm
    unfold reconcileStep at hm
    by_cases h1 : ahas acc.1.peerConnections q
    · exact hacc m (by simpa [h1] using hm)
    · by_cases h2 : jsLt myId q = true
      · simp [h1, h2, createOffer] at hm
        rcases hm with hm | hm
        · exact hacc m hm
        · exact ⟨q, hm, h2⟩
      · exact hacc m (by simpa [h1, h2] using hm)

theorem reconcileFold_sends {a b : String} (hab : jsLt a b = true) :
    ∀ (l : List String) (acc : RTCState × List ClientMsg),
      (ClientMsg.offerMsg a b ∈ acc.2 ∨
        (b ∈ l ∧ ahas acc.1.peerConnections b = false)) →
      ClientMsg.offerMsg a b ∈ (l.foldl (reconcileStep a) acc).2 := by
  intro l
  induction l with
  | nil =>
    intro acc hacc
    rcases hacc with h | ⟨hb, _⟩
    · exact h
    · exact absurd hb (List.not_mem_nil _)
  | cons q rest ih =>
    intro acc hacc
    rcases hacc with h | ⟨hbl, hbf⟩
    · exact ih _ (Or.inl (reconcileStep_sup a acc q h))
    · by_cases hqb : q = b
      · subst hqb
        have hstep : ClientMsg.offerMsg a q ∈ (reconcileStep a acc q).2 := by
          unfold reconcileStep
          simp [hbf, hab, createOffer]
        exact ih _ (Or.inl hstep)
      · have hbl' : b ∈ rest := by
          rcases List.mem_cons.mp hbl with h | h
          · exact absurd h.symm hqb
          · exact h
        refine ih _ (Or.inr ⟨hbl', ?_⟩)
        unfold reconcileStep
        by_cases h1 : ahas acc.1.peerConnections q
        · simpa [h1] using hbf
        · by_cases h2 : jsLt a q = true
          · have hbq : b ≠ q := fun h => hqb h.symm
            have : ahas (aset acc.1.peerConnections q acc.1.nextPc) b = false := by
              rw [ahas_aset]
              simp [hbq, hbf]
            simpa [h1, h2, createOffer, createPeerConnection] using this
          · simpa [h1, h2] using hbf

/-- C3: for distinct ids with `a` before `b` in JS string order, when each
side's roster reconciliation sees a participant list containing the other
and holds no connection to it, the smaller id sends an OFFER to the larger
and the larger never initiates an OFFER toward the smaller. -/
theorem glare_avoidance_unique_initiator
    (a b : String) (pA pB : List String) (sA sB : RTCState)
    (hab : jsLt a b = true)
    (hbA : b ∈ pA) (haB : a ∈ pB)
    (hA : ahas sA.peerConnections b = false)
    (hB : ahas sB.peerConnections a = false) :
    ClientMsg.offerMsg a b ∈ (reconcileParticipants a pA sA).2 ∧
    ClientMsg.offerMsg b a ∉ (reconcileParticipants b pB sB).2 := by
  constructor
  · have hmem : b ∈ pA.filter (fun id => id ≠ a) :=
      List.mem_filter.mpr ⟨hbA, by simp [jsLt_ne hab]⟩
    exact reconcileFold_sends hab _ (sA, []) (Or.inr ⟨hmem, hA⟩)
  · intro hmem
    have hshape := reconcileFold_shape b (pB.filter (fun id => id ≠ b)) (sB, [])
      (by intro m hm; exact absurd hm (List.not_mem_nil _))
      (ClientMsg.offerMsg b a) hmem
    rcases hshape with ⟨p, hp, hlt⟩
    have hpa : p = a := by
      injection hp with h1 h2
      exact h2.symm
    rw [hpa] at hlt
    rw [jsLt_asymm hab] at hlt
    exact Bool.noConfusion hlt

/-- Concrete instantiation of `glare_avoidance_unique_initiator` for ids
"a" < "b", a shared roster ["a", "b"], and fresh clients. -/
theorem glare_avoidance_unique_initiator_witness :
    ClientMsg.offerMsg "a" "b" ∈ (reconcileParticipants "a" ["a", "b"] ⟨[], 0⟩).2 ∧
    ClientMsg.offerMsg "b" "a" ∉ (reconcileParticipants "b" ["a", "b"] ⟨[], 0⟩).2 :=
  glare_avoidance_unique_initiator "a" "b" ["a", "b"] ["a", "b"] ⟨[], 0⟩ ⟨[], 0⟩
    (by decide) (by decide) (by decide) (by decide) (by decide)

/-- C10 (implicit): an incoming OFFER from peer `p` creates a brand-new
connection and stores it under `p` unconditionally, so an existing entry is
replaced by the fresh handle without this path closing the old one. -/
theorem incoming_offer_overwrites_connection
    (myId fromId : String) (s : RTCState) (oldPc : Nat)
    (hold : aget s.peerConnections fromId = some oldPc)
    (hfresh : oldPc < s.nextPc) :
    aget (handleOfferClient myId s fromId).1.peerConnections fromId =
      some s.nextPc ∧
    s.nextPc ≠ oldPc ∧
    (handleOfferClient myId s fromId).2.1 = [ClientMsg.answerMsg myId fromId] ∧
    (handleOfferClient myId s fromId).2.2 = [] ∧
    (handleOfferClient myId s fromId).1.nextPc = s.nextPc + 1 :=
  ⟨aget_aset_self _ _ _, Nat.ne_of_gt hfresh, rfl, rfl, rfl⟩

/-- Concrete instantiation of `incoming_offer_overwrites_connection`: a
client already holding connection 0 to "b" receives an OFFER from "b"; the
map now holds the fresh handle 1 for "b" and nothing was closed. -/
theorem incoming_offer_overwrites_connection_witness :
    aget (handleOfferClient "a" ⟨[("b", 0)], 1⟩ "b").1.peerConnections "b" =
      some 1 ∧
    (1 : Nat) ≠ 0 ∧
    (handleOfferClient "a" ⟨[("b", 0)], 1⟩ "b").2.1 =
      [ClientMsg.answerMsg "a" "b"] ∧
    (handleOfferClient "a" ⟨[("b", 0)], 1⟩ "b").2.2 = [] ∧
    (handleOfferClient "a" ⟨[("b", 0)], 1⟩ "b").1.nextPc = 2 :=
  incoming_offer_overwrites_connection "a" "b" ⟨[("b", 0)], 1⟩ 0
    (by decide) (by decide)

/-! ### useMotionDetection (`client/src/hooks/useMotionDetection.ts`)

Frames are lists of RGB pixels; `motionPercentage` values are exact
rationals.  The hook's three mutable window refs become a
`MotionFilterState`; one evaluation of the advanced-filtering block of
`detectMotion` is `stepFilter`.  The `checkMotion` loop body, the local
timeout callback and the 10-second heartbeat interval callback are the
three transitions on `HookState`. -/

structure Pixel where
  r : Nat
  g : Nat
  b : Nat
  deriving Repr, DecidableEq

abbrev Frame := List Pixel

/-- `(|rDiff| + |gDiff| + |bDiff|) / 3` for one pixel pair. -/
def pixelAvgDiff (p q : Pixel) : ℚ :=
  ((((p.r : ℤ) - q.r).natAbs + ((p.g : ℤ) - q.g).natAbs
    + ((p.b : ℤ) - q.b).natAbs : ℕ) : ℚ) / 3

/-- `motionPercentage`: the percentage of pixel pairs whose average channel
difference exceeds the configured intensity threshold. -/
def motionPercentageOf (threshold : ℚ) (prev cur : Frame) : ℚ :=
  (((cur.zip prev).filter
      (fun pq => threshold < pixelAvgDiff pq.1 pq.2)).length : ℚ)
    / (cur.length : ℚ) * 100

/-- `push` followed by `shift` when the window exceeds its capacity. -/
def pushCapped (l : List ℚ) (x : ℚ) (cap : Nat) : List ℚ :=
  if cap < (l ++ [x]).length then (l ++ [x]).tail else l ++ [x]

/-- The rolling baseline: mean of the retained low-motion window, `0.2` when
the window is empty. -/
def rollingBaseline (base : List ℚ) : ℚ :=
  if 0 < base.length then base.sum / (base.length : ℚ) else 1/5

/-- `adaptiveThreshold = max(0.5, baseline * 3)`. -/
def adaptiveThresholdOf (base : List ℚ) : ℚ :=
  max (1/2) (rollingBaseline base * 3)

structure MotionFilterState where
  motionHistory : List ℚ
  baseline : List ℚ
  motionVelocity : List ℚ
  deriving Repr, DecidableEq

def MotionFilterState.init : MotionFilterState := ⟨[], [], []⟩

/-- The advanced-filtering block of `detectMotion` on one
`motionPercentage` sample: update the three windows, then combine the
temporal, velocity and raw-threshold checks. -/
def stepFilter (st : MotionFilterState) (mp : ℚ) : MotionFilterState × Bool :=
  let hist := pushCapped st.motionHistory mp 5
  let base := if mp < 3/10 then pushCapped st.baseline mp 30 else st.baseline
  let thr := adaptiveThresholdOf base
  let vel :=
    if 2 ≤ hist.length then
      pushCapped st.motionVelocity
        (|hist.getD (hist.length - 1) 0 - hist.getD (hist.length - 2) 0|) 5
    else st.motionVelocity
  let avgVelocity := if 0 < vel.length then vel.sum / (vel.length : ℚ) else 0
  let hasTemporalMotion : Bool :=
    decide (3 ≤ (hist.filter (fun m => thr < m)).length)
  let hasSignificantVelocity : Bool :=
    decide ((1/10 : ℚ) < avgVelocity) || decide (thr * 2 < mp)
  (⟨hist, base, vel⟩,
   hasTemporalMotion && hasSignificantVelocity && decide (thr < mp))

structure DetectorState where
  previousFrame : Option Frame
  filter : MotionFilterState
  deriving Repr, DecidableEq

/-- `detectMotion` on one captured frame (past the throttling and readiness
guards): the first frame only seeds `previousFrameRef`; afterwards the
frame is diffed against the previous one and filtered. -/
def detectMotionStep (threshold : ℚ) (st : DetectorState) (frame : Frame) :
    DetectorState × Bool :=
  match st.previousFrame with
  | none => ({ st with previousFrame := some frame }, false)
  | some prev =>
    let mp := motionPercentageOf threshold prev frame
    let next := stepFilter st.filter mp
    (⟨some frame, next.1⟩, next.2)

structure HookState where
  isMotionActive : Bool
  motionTimeout : Option Nat
  isMotionEnabled : Bool
  deriving Repr, DecidableEq

inductive MotionEvent where
  | onDetected
  | onStopped
  deriving Repr, DecidableEq

/-- The heartbeat interval cadence (`setInterval(..., 10000)`). -/
def heartbeatIntervalMs : Nat := 10000

/-- One firing of the heartbeat interval.  The effect only keeps the
interval while motion is active and enabled; the callback calls
`onMotionDetected()` and touches no other state — in particular not
`motionTimeoutRef`. -/
def heartbeatTick (s : HookState) : HookState × List MotionEvent :=
  if s.isMotionActive && s.isMotionEnabled then (s, [MotionEvent.onDetected])
  else (s, [])

/-- One `checkMotion` loop iteration given the `detectMotion` verdict. -/
def checkMotionStep (timeoutDuration now : Nat) (s : HookState)
    (motionDetected : Bool) : HookState × List MotionEvent :=
  if !s.isMotionEnabled then (s, [])
  else if motionDetected then
    ({ s with isMotionActive := true,
              motionTimeout := some (now + timeoutDuration) },
     if !s.isMotionActive then [MotionEvent.onDetected] else [])
  else if s.isMotionActive && s.motionTimeout.isNone then
    ({ s with motionTimeout := some (now + timeoutDuration) }, [])
  else (s, [])

/-- The local timeout callback: deactivate and fire `onMotionStopped` (the
stale handle stays in `motionTimeoutRef`). -/
def timeoutFire (s : HookState) : HookState × List MotionEvent :=
  ({ s with isMotionActive := false }, [MotionEvent.onStopped])

/-- The stored low-motion window: at most 30 entries, all below 0.3. -/
def BaselineWindowOk (l : List ℚ) : Prop :=
  l.length ≤ 30 ∧ ∀ x ∈ l, x < 3/10

theorem pushCapped_length_le {l : List ℚ} {cap : Nat} (h : l.length ≤ cap)
    (x : ℚ) : (pushCapped l x cap).length ≤ cap := by
  unfold pushCapped
  by_cases hc : cap < (l ++ [x]).length
  · rw [if_pos hc]
    simpa using h
  · rw [if_neg hc]
    omega

theorem pushCapped_mem {l : List ℚ} {cap : Nat} {x y : ℚ}
    (h : y ∈ pushCapped l x cap) : y ∈ l ∨ y = x := by
  unfold pushCapped at h
  have hy : y ∈ l ++ [x] := by
    by_cases hc : cap < (l ++ [x]).length
    · rw [if_pos hc] at h
      exact List.mem_of_mem_tail h
    · rwa [if_neg hc] at h
  simpa using List.mem_append.mp hy

theorem adaptiveThresholdOf_ge_half (base : List ℚ) :
    (1/2 : ℚ) ≤ adaptiveThresholdOf base := le_max_left _ _

/-- Zero `motionPercentage` never passes the raw-threshold check. -/
theorem stepFilter_zero_not_real (st : MotionFilterState) :
    (stepFilter st 0).2 = false := by
  have hneg : decide (adaptiveThresholdOf
      (if (0 : ℚ) < 3/10 then pushCapped st.baseline 0 30 else st.baseline)
        < (0 : ℚ)) = false := by
    apply decide_eq_false
    have := adaptiveThresholdOf_ge_half
      (if (0 : ℚ) < 3/10 then pushCapped st.baseline 0 30 else st.baseline)
    intro hcon
    linarith
  simp only [stepFilter, hneg, Bool.and_false]

theorem mem_zip_self {α : Type} : ∀ {l : List α} {p : α × α},
    p ∈ l.zip l → p.1 = p.2 := by
  intro l
  induction l with
  | nil => intro p hp; simp at hp
  | cons a rest ih =>
    intro p hp
    rw [List.zip_cons_cons] at hp
    rcases List.mem_cons.mp hp with rfl | hp
    · rfl
    · exact ih hp

/-- A frame diffed against itself has `motionPercentage` zero. -/
theorem motionPercentage_self {threshold : ℚ} (h : 0 ≤ threshold) (f : Frame) :
    motionPercentageOf threshold f f = 0 := by
  have hz : (f.zip f).filter
      (fun pq => decide (threshold < pixelAvgDiff pq.1 pq.2)) = [] := by
    apply List.filter_eq_nil.mpr
    intro pq hpq
    have hpq' : pq.1 = pq.2 := mem_zip_self hpq
    have hd : pixelAvgDiff pq.1 pq.2 = 0 := by
      rw [hpq']
      simp [pixelAvgDiff, sub_self]
    simp [hd]
    linarith
  simp [motionPercentageOf, hz]

/-- C8: the adaptive threshold is `max(0.5, 3 × mean)` of the retained
low-motion window (at most 30 samples, all below 0.3); the real-motion
verdict is exactly the conjunction of the temporal, velocity and
raw-threshold filters; a zero-difference sample is never real motion, and
feeding two bit-identical frames never yields a detection (hence no rising
edge, which `checkMotionStep` only emits on a detection). -/
theorem adaptive_threshold_and_identical_frames
    (st : MotionFilterState) (mp threshold : ℚ) (f : Frame)
    (fs : MotionFilterState) (hs : HookState) (timeoutDuration now : Nat) :
    (BaselineWindowOk st.baseline →
      BaselineWindowOk (stepFilter st mp).1.baseline) ∧
    (∀ base : List ℚ, base ≠ [] →
      adaptiveThresholdOf base =
        max (1/2) (3 * (base.sum / (base.length : ℚ)))) ∧
    ((stepFilter st mp).2 =
      (decide (3 ≤ ((stepFilter st mp).1.motionHistory.filter
          (fun m => adaptiveThresholdOf (stepFilter st mp).1.baseline < m)).length) &&
       (decide ((1/10 : ℚ) <
          (if 0 < (stepFilter st mp).1.motionVelocity.length then
            (stepFilter st mp).1.motionVelocity.sum /
              ((stepFilter st mp).1.motionVelocity.length : ℚ)
          else 0)) ||
        decide (adaptiveThresholdOf (stepFilter st mp).1.baseline * 2 < mp)) &&
       decide (adaptiveThresholdOf (stepFilter st mp).1.baseline < mp))) ∧
    ((stepFilter st 0).2 = false) ∧
    (0 ≤ threshold → motionPercentageOf threshold f f = 0) ∧
    (0 ≤ threshold →
      (detectMotionStep threshold ⟨some f, fs⟩ f).2 = false) ∧
    ((detectMotionStep threshold ⟨none, fs⟩ f).2 = false) ∧
    (0 ≤ threshold →
      (detectMotionStep threshold
        (detectMotionStep threshold ⟨none, fs⟩ f).1 f).2 = false) ∧
    ((checkMotionStep timeoutDuration now hs false).2 = []) := by
  refine ⟨?_, ?_, rfl, stepFilter_zero_not_real st, ?_, ?_, rfl, ?_, ?_⟩
  · intro hok
    have hbase : (stepFilter st mp).1.baseline =
        if mp < 3/10 then pushCapped st.baseline mp 30 else st.baseline := rfl
    rw [hbase]
    by_cases hmp : mp < 3/10
    · rw [if_pos hmp]
      refine ⟨pushCapped_length_le hok.1 mp, ?_⟩
      intro x hx
      rcases pushCapped_mem hx with hx | rfl
      · exact hok.2 x hx
      · exact hmp
    · rw [if_neg hmp]
      exact hok
  · intro base hne
    have hlen : 0 < base.length := List.length_pos.mpr hne
    rw [adaptiveThresholdOf, rollingBaseline, if_pos hlen, mul_comm]
  · intro h
    exact motionPercentage_self h f
  · intro h
    show (stepFilter fs (motionPercentageOf threshold f f)).2 = false
    rw [motionPercentage_self h f]
    exact stepFilter_zero_not_real fs
  · intro h
    show (stepFilter fs (motionPercentageOf threshold f f)).2 = false
    rw [motionPercentage_self h f]
    exact stepFilter_zero_not_real fs
  · unfold checkMotionStep
    split_ifs <;> simp_all

/-- Concrete instantiation of `adaptive_threshold_and_identical_frames`:
with the default pixel threshold 30, a repeated one-pixel frame yields
`motionPercentage` 0 and no detection, and the empty baseline window stays
well-formed after a zero sample. -/
theorem adaptive_threshold_and_identical_frames_witness :
    motionPercentageOf 30 [⟨0, 0, 0⟩] [⟨0, 0, 0⟩] = 0 ∧
    (detectMotionStep 30 ⟨some [⟨0, 0, 0⟩], MotionFilterState.init⟩
        [⟨0, 0, 0⟩]).2 = false ∧
    BaselineWindowOk (stepFilter MotionFilterState.init 0).1.baseline :=
  ⟨(adaptive_threshold_and_identical_frames MotionFilterState.init 0 30
      [⟨0, 0, 0⟩] MotionFilterState.init ⟨false, none, true⟩ 5000 0).2.2.2.2.1
    (by norm_num),
   (adaptive_threshold_and_identical_frames MotionFilterState.init 0 30
      [⟨0, 0, 0⟩] MotionFilterState.init ⟨false, none, true⟩ 5000 0).2.2.2.2.2.1
    (by norm_num),
   (adaptive_threshold_and_identical_frames MotionFilterState.init 0 30
      [⟨0, 0, 0⟩] MotionFilterState.init ⟨false, none, true⟩ 5000 0).1
    (by constructor <;> simp [MotionFilterState.init])⟩

/-- C9: a heartbeat firing leaves the entire hook state — in particular the
local motion timeout — unchanged, emits `onDetected` exactly when motion is
active (and detection enabled), runs at the fixed 10-second cadence, and
does not affect a subsequent local timeout expiry. -/
theorem heartbeat_never_rearms_local_timeout (s : HookState) :
    (heartbeatTick s).1 = s ∧
    (heartbeatTick s).1.motionTimeout = s.motionTimeout ∧
    ((heartbeatTick s).2 =
      if s.isMotionActive && s.isMotionEnabled then [MotionEvent.onDetected]
      else []) ∧
    timeoutFire (heartbeatTick s).1 = timeoutFire s ∧
    heartbeatIntervalMs = 10000 := by
  have h1 : (heartbeatTick s).1 = s := by
    unfold heartbeatTick
    split_ifs <;> rfl
  refine ⟨h1, by rw [h1], ?_, by rw [h1], rfl⟩
  unfold heartbeatTick
  split_ifs with h <;> simp [h]

end Portal
